import Mathlib

/-!
Shallow embedding of the adaptive diagnostic routing engine of
`src/src/hooks/useDiagnosticFlow.ts`.

The React hook holds a single `DiagnosticState` value and mutates it through
`setState(prev => ...)` closures; each closure is a pure function of the
previous state, which we embed directly:

  * `submitTaskResult` — the transition function (lines 97–196),
  * `completeRepair` — the repair-completion signal (lines 199–204),
  * `getDiagnosticSummary` — the summary reducer (lines 212–243).

TypeScript `number` fields that the engine only adds and compares are
embedded as `Nat`; the `unknown`-typed answer payloads are embedded as
`String` (they are opaque to every branch of the engine).
-/

/-- `type DiagnosticLevel = 'level_1' | 'level_2'`. -/
inductive DiagnosticLevel where
  | level_1
  | level_2
  deriving Repr, DecidableEq

/-- The `currentTask` field ranges over `'A' | 'B' | 'repair'`. -/
inductive TaskSlot where
  | A
  | B
  | repair
  deriving Repr, DecidableEq

/-- One ledger entry, as packaged by the caller of `submitTaskResult`
(`taskId`, `isCorrect`, opaque answer payloads, `timeTakenSeconds`,
`attemptNumber`). -/
structure TaskResult where
  taskId : String
  isCorrect : Bool
  studentAnswer : String
  correctAnswer : String
  timeTakenSeconds : Nat
  attemptNumber : Nat
  deriving Repr, DecidableEq

/-- The hook-held `DiagnosticState` object. -/
structure DiagnosticState where
  currentLevel : DiagnosticLevel
  currentTask : TaskSlot
  taskResults : List TaskResult
  repairAttempts : Nat
  needsExtraSupport : Bool
  isComplete : Bool
  passedLevel1 : Bool
  passedLevel2 : Bool
  deriving Repr, DecidableEq

/-- `initialState` (lines 74–83 of the source). -/
def initialState : DiagnosticState where
  currentLevel := .level_1
  currentTask := .A
  taskResults := []
  repairAttempts := 0
  needsExtraSupport := false
  isComplete := false
  passedLevel1 := false
  passedLevel2 := false

/-- The `taskACorrect` computation of the Level-2 slot-B branch
(lines 146–161): filter the ledger copy `newResults` down to the entries
whose `taskId` is `L2_A` or `L2_B`, take the FIRST entry whose `taskId` is
`L2_A` (`Array.find` returns the first match), and read its `isCorrect`,
defaulting to `false` (`?? false`) when there is none. -/
def taskACorrectOf (newResults : List TaskResult) : Bool :=
  let level2Results := newResults.filter fun r =>
    r.taskId == "L2_A" || r.taskId == "L2_B"
  let taskAResult := level2Results.find? fun r => r.taskId == "L2_A"
  (taskAResult.map fun r => r.isCorrect).getD false

/-- `submitTaskResult` (lines 97–196): appends `result` to the ledger copy
`newResults` and then branches exactly as the source's `if` chain does.
The source first tests `prev.currentLevel === 'level_1'` with inner branches
on `currentTask === 'A'` / `'B'`, then `prev.currentLevel === 'level_2'`
likewise; any state whose `currentTask` is `'repair'` matches no branch and
the closure returns `prev` unchanged. -/
def submitTaskResult (prev : DiagnosticState) (result : TaskResult) :
    DiagnosticState :=
  let newResults := prev.taskResults ++ [result]
  match prev.currentLevel, prev.currentTask with
  | .level_1, .A =>
      if result.isCorrect then
        { prev with
          taskResults := newResults
          currentLevel := .level_2
          currentTask := .A
          passedLevel1 := true }
      else
        { prev with taskResults := newResults, currentTask := .B }
  | .level_1, .B =>
      if result.isCorrect then
        { prev with
          taskResults := newResults
          currentLevel := .level_2
          currentTask := .A
          passedLevel1 := true }
      else
        { prev with
          taskResults := newResults
          currentTask := .repair
          repairAttempts := prev.repairAttempts + 1 }
  | .level_2, .A =>
      { prev with taskResults := newResults, currentTask := .B }
  | .level_2, .B =>
      let taskACorrect := taskACorrectOf newResults
      let taskBCorrect := result.isCorrect
      if taskACorrect && taskBCorrect then
        { prev with
          taskResults := newResults
          isComplete := true
          passedLevel2 := true
          needsExtraSupport := false }
      else if taskACorrect != taskBCorrect then
        { prev with
          taskResults := newResults
          isComplete := true
          passedLevel2 := true
          needsExtraSupport := true }
      else
        { prev with
          taskResults := newResults
          currentTask := .repair
          repairAttempts := prev.repairAttempts + 1 }
  | _, .repair => prev

/-- `completeRepair` (lines 199–204): `{...prev, currentTask: 'A'}`. -/
def completeRepair (prev : DiagnosticState) : DiagnosticState :=
  { prev with currentTask := .A }

/-- The coarse topic label assigned per ledger entry inside
`getDiagnosticSummary` (line 223): `taskId.startsWith('L1')` picks the
Level-1 topic. JS `startsWith` is embedded as a character-list prefix test,
which has the same meaning and is computable by the kernel. -/
def topicOf (result : TaskResult) : String :=
  if "L1".toList.isPrefixOf result.taskId.toList then "Basic Counting"
  else "Grouped Counting"

/-- The `forEach` loop of `getDiagnosticSummary` (lines 222–229): two
accumulating arrays `(gaps, strengths)`, each pushed at the end when the
topic is not already included. -/
def classifyStep (acc : List String × List String) (result : TaskResult) :
    List String × List String :=
  let topic := topicOf result
  if result.isCorrect then
    if acc.2.contains topic then acc else (acc.1, acc.2 ++ [topic])
  else
    if acc.1.contains topic then acc else (acc.1 ++ [topic], acc.2)

/-- The record returned by `getDiagnosticSummary`. -/
structure DiagnosticSummary where
  passed : Bool
  passedLevel1 : Bool
  passedLevel2 : Bool
  needsExtraSupport : Bool
  repairAttempts : Nat
  correctCount : Nat
  totalQuestions : Nat
  totalTimeSeconds : Nat
  gaps : List String
  strengths : List String
  deriving Repr, DecidableEq

/-- `getDiagnosticSummary` (lines 212–243). -/
def getDiagnosticSummary (state : DiagnosticState) : DiagnosticSummary :=
  let correctCount := (state.taskResults.filter fun r => r.isCorrect).length
  let totalTime :=
    state.taskResults.foldl (fun sum r => sum + r.timeTakenSeconds) 0
  let classified := state.taskResults.foldl classifyStep ([], [])
  { passed := state.passedLevel1 || state.passedLevel2
    passedLevel1 := state.passedLevel1
    passedLevel2 := state.passedLevel2
    needsExtraSupport := state.needsExtraSupport
    repairAttempts := state.repairAttempts
    correctCount := correctCount
    totalQuestions := state.taskResults.length
    totalTimeSeconds := totalTime
    gaps := classified.1
    strengths := classified.2 }

/-- A session step as driven by the UI: either a `submitTaskResult` call
carrying its `TaskResult`, or the `completeRepair` signal. -/
inductive FlowOp where
  | submit (result : TaskResult)
  | repairDone
  deriving Repr, DecidableEq

/-- Apply one session step to a state. -/
def applyOp (s : DiagnosticState) : FlowOp → DiagnosticState
  | .submit r => submitTaskResult s r
  | .repairDone => completeRepair s

/-- Run a list of session steps from a state, in order. -/
def runOps (s : DiagnosticState) : List FlowOp → DiagnosticState
  | [] => s
  | op :: rest => runOps (applyOp s op) rest

/-- A trace is legal when every `submit` step happens in a state that
satisfies the spec's precondition: not complete and not in repair. -/
def legalOps (s : DiagnosticState) : List FlowOp → Bool
  | [] => true
  | op :: rest =>
      (match op with
       | .submit _ => !s.isComplete && !(s.currentTask == .repair)
       | .repairDone => true) && legalOps (applyOp s op) rest

/-- The results carried by the `submit` steps of a trace, in order. -/
def submittedResults : List FlowOp → List TaskResult
  | [] => []
  | .submit r :: rest => r :: submittedResults rest
  | .repairDone :: rest => submittedResults rest

/-- Whether a session step is a `submitTaskResult` call. -/
def isSubmit : FlowOp → Bool
  | .submit _ => true
  | .repairDone => false

/-- A concrete result value used to instantiate hypotheses on small inputs. -/
def sampleResult (id : String) (c : Bool) : TaskResult where
  taskId := id
  isCorrect := c
  studentAnswer := ""
  correctAnswer := ""
  timeTakenSeconds := 1
  attemptNumber := 1

/-- The three-step clean pass from the fresh state: `L1_A` correct,
`L2_A` correct, `L2_B` correct; its end state is complete. -/
def cleanPassOps : List FlowOp :=
  [.submit (sampleResult "L1_A" true), .submit (sampleResult "L2_A" true),
   .submit (sampleResult "L2_B" true)]

section HelperLemmas

/-- Finding in a filtered list equals finding in the original list when the
search predicate implies the filter predicate. -/
theorem find?_filter_of_imp (l : List α) (p q : α → Bool)
    (h : ∀ x, p x = true → q x = true) :
    (l.filter q).find? p = l.find? p := by
  induction l with
  | nil => rfl
  | cons x xs ih =>
      cases hq : q x with
      | true =>
          cases hp : p x with
          | true => simp [List.filter_cons, hq, hp]
          | false => simp [List.filter_cons, hq, hp, ih]
      | false =>
          have hp : p x = false := by
            cases hp : p x with
            | true => exact absurd (h x hp) (by simp [hq])
            | false => rfl
          simp [List.filter_cons, hq, hp, ih]

/-- `taskACorrectOf` reads the first `L2_A` entry of the ledger copy: the
surrounding filter to level-2 entries does not change which entry is found. -/
theorem taskACorrectOf_eq (l : List TaskResult) :
    taskACorrectOf l =
      (((l.find? fun x => x.taskId == "L2_A").map fun x => x.isCorrect).getD
        false) := by
  simp only [taskACorrectOf]
  rw [find?_filter_of_imp]
  intro x hx
  simp [hx]

/-- When the first `L2_A` entry of the ledger copy is `a`, the Level-2-B
branch compares against `a.isCorrect`. -/
theorem taskACorrectOf_of_find (l : List TaskResult) (a : TaskResult)
    (h : (l.find? fun x => x.taskId == "L2_A") = some a) :
    taskACorrectOf l = a.isCorrect := by
  rw [taskACorrectOf_eq, h]
  rfl

/-- The Level-1 slot-A branch of `submitTaskResult`. -/
theorem submit_level1A_eq (s : DiagnosticState) (r : TaskResult)
    (hL : s.currentLevel = .level_1) (hS : s.currentTask = .A) :
    submitTaskResult s r =
      if r.isCorrect then
        { s with taskResults := s.taskResults ++ [r], currentLevel := .level_2, currentTask := .A, passedLevel1 := true }
      else
        { s with taskResults := s.taskResults ++ [r], currentTask := .B } := by
  obtain ⟨cl, ct, tr, ra, ns, ic, p1, p2⟩ := s
  cases hL
  cases hS
  rfl

/-- The Level-1 slot-B branch of `submitTaskResult`. -/
theorem submit_level1B_eq (s : DiagnosticState) (r : TaskResult)
    (hL : s.currentLevel = .level_1) (hS : s.currentTask = .B) :
    submitTaskResult s r =
      if r.isCorrect then
        { s with taskResults := s.taskResults ++ [r], currentLevel := .level_2, currentTask := .A, passedLevel1 := true }
      else
        { s with taskResults := s.taskResults ++ [r], currentTask := .repair, repairAttempts := s.repairAttempts + 1 } := by
  obtain ⟨cl, ct, tr, ra, ns, ic, p1, p2⟩ := s
  cases hL
  cases hS
  rfl

/-- The Level-2 slot-A branch of `submitTaskResult`. -/
theorem submit_level2A_eq (s : DiagnosticState) (r : TaskResult)
    (hL : s.currentLevel = .level_2) (hS : s.currentTask = .A) :
    submitTaskResult s r =
      { s with taskResults := s.taskResults ++ [r], currentTask := .B } := by
  obtain ⟨cl, ct, tr, ra, ns, ic, p1, p2⟩ := s
  cases hL
  cases hS
  rfl

/-- The Level-2 slot-B branch of `submitTaskResult`. -/
theorem submit_level2B_eq (s : DiagnosticState) (r : TaskResult)
    (hL : s.currentLevel = .level_2) (hS : s.currentTask = .B) :
    submitTaskResult s r =
      (if taskACorrectOf (s.taskResults ++ [r]) && r.isCorrect then
        { s with taskResults := s.taskResults ++ [r], isComplete := true, passedLevel2 := true, needsExtraSupport := false }
      else if taskACorrectOf (s.taskResults ++ [r]) != r.isCorrect then
        { s with taskResults := s.taskResults ++ [r], isComplete := true, passedLevel2 := true, needsExtraSupport := true }
      else
        { s with taskResults := s.taskResults ++ [r], currentTask := .repair, repairAttempts := s.repairAttempts + 1 }) := by
  obtain ⟨cl, ct, tr, ra, ns, ic, p1, p2⟩ := s
  cases hL
  cases hS
  rfl

/-- A state whose `currentTask` is `repair` matches no branch of the
source's `if` chain: the closure returns `prev` unchanged. -/
theorem submit_repair_eq (s : DiagnosticState) (r : TaskResult)
    (h : s.currentTask = .repair) : submitTaskResult s r = s := by
  obtain ⟨cl, ct, tr, ra, ns, ic, p1, p2⟩ := s
  cases h
  cases cl <;> rfl

/-- Every non-repair state appends exactly the submitted result at the end
of the ledger. -/
theorem submit_taskResults_append (s : DiagnosticState) (r : TaskResult)
    (h : s.currentTask ≠ .repair) :
    (submitTaskResult s r).taskResults = s.taskResults ++ [r] := by
  obtain ⟨cl, ct, tr, ra, ns, ic, p1, p2⟩ := s
  cases cl <;> cases ct <;> simp only [submitTaskResult] <;>
    first
    | (exact (h rfl).elim)
    | (split <;> first | rfl | (split <;> rfl))

end HelperLemmas

/-- C6: Level-1 routing: from `(Level1, A)` a correct result goes to
`(Level2, A)` with `passedLevel1 = true` and an incorrect one to
`(Level1, B)`; from `(Level1, B)` a correct result goes to `(Level2, A)`
with `passedLevel1 = true` and an incorrect one to `(Level1, Repair)` with
`repairAttempts` incremented; and from a fresh state submitting two
incorrect results yields level 1, slot `Repair`, `repairAttempts = 1`,
not complete. -/
theorem C6_level1_routing (s : DiagnosticState) (r : TaskResult) :
    (s.currentLevel = .level_1 → s.currentTask = .A → r.isCorrect = true →
      (submitTaskResult s r).currentLevel = .level_2 ∧
      (submitTaskResult s r).currentTask = .A ∧
      (submitTaskResult s r).passedLevel1 = true) ∧
    (s.currentLevel = .level_1 → s.currentTask = .A → r.isCorrect = false →
      (submitTaskResult s r).currentLevel = .level_1 ∧
      (submitTaskResult s r).currentTask = .B) ∧
    (s.currentLevel = .level_1 → s.currentTask = .B → r.isCorrect = true →
      (submitTaskResult s r).currentLevel = .level_2 ∧
      (submitTaskResult s r).currentTask = .A ∧
      (submitTaskResult s r).passedLevel1 = true) ∧
    (s.currentLevel = .level_1 → s.currentTask = .B → r.isCorrect = false →
      (submitTaskResult s r).currentLevel = .level_1 ∧
      (submitTaskResult s r).currentTask = .repair ∧
      (submitTaskResult s r).repairAttempts = s.repairAttempts + 1) ∧
    (∀ r1 r2 : TaskResult, r1.isCorrect = false → r2.isCorrect = false →
      (submitTaskResult (submitTaskResult initialState r1) r2).currentLevel
        = .level_1 ∧
      (submitTaskResult (submitTaskResult initialState r1) r2).currentTask
        = .repair ∧
      (submitTaskResult (submitTaskResult initialState r1) r2).repairAttempts
        = 1 ∧
      (submitTaskResult (submitTaskResult initialState r1) r2).isComplete
        = false) := by
  refine ⟨?_, ?_, ?_, ?_, ?_⟩
  · intro hL hS hc
    rw [submit_level1A_eq s r hL hS]
    simp [hc]
  · intro hL hS hc
    rw [submit_level1A_eq s r hL hS]
    simp [hc, hL]
  · intro hL hS hc
    rw [submit_level1B_eq s r hL hS]
    simp [hc]
  · intro hL hS hc
    rw [submit_level1B_eq s r hL hS]
    simp [hc, hL]
  · intro r1 r2 h1 h2
    rw [submit_level1A_eq initialState r1 rfl rfl]
    simp only [h1, Bool.false_eq_true, if_false]
    rw [submit_level1B_eq _ r2 rfl rfl]
    simp [h2, initialState]

/-- Witness for C6 at concrete inputs. -/
theorem C6_level1_routing_witness :
    ((submitTaskResult initialState (sampleResult "L1_A" true)).currentLevel
      = .level_2 ∧
     (submitTaskResult initialState (sampleResult "L1_A" true)).passedLevel1
      = true) ∧
    (submitTaskResult (submitTaskResult initialState
      (sampleResult "L1_A" false)) (sampleResult "L1_B" false)).repairAttempts
      = 1 := by
  have h1 := (C6_level1_routing initialState (sampleResult "L1_A" true)).1
    rfl rfl rfl
  have h2 := ((C6_level1_routing initialState (sampleResult "L1_A" false)
    ).2.2.2.2 (sampleResult "L1_A" false) (sampleResult "L1_B" false) rfl rfl)
  exact ⟨⟨h1.1, h1.2.2⟩, h2.2.2.1⟩

/-- C7: from any non-complete state at Level 2 slot A, `submitTaskResult`
moves to slot B of the same level regardless of the result's correctness,
appends the result, and leaves `isComplete`, `passedLevel2`,
`needsExtraSupport` and `repairAttempts` untouched — the `L2_A` result alone
never completes the session. -/
theorem C7_level2A_always_proceeds (s : DiagnosticState) (r : TaskResult)
    (hL : s.currentLevel = .level_2) (hS : s.currentTask = .A)
    (hC : s.isComplete = false) :
    (submitTaskResult s r).currentLevel = .level_2 ∧
    (submitTaskResult s r).currentTask = .B ∧
    (submitTaskResult s r).isComplete = false ∧
    (submitTaskResult s r).passedLevel2 = s.passedLevel2 ∧
    (submitTaskResult s r).needsExtraSupport = s.needsExtraSupport ∧
    (submitTaskResult s r).repairAttempts = s.repairAttempts ∧
    (submitTaskResult s r).passedLevel1 = s.passedLevel1 ∧
    (submitTaskResult s r).taskResults = s.taskResults ++ [r] := by
  rw [submit_level2A_eq s r hL hS]
  simp [hC, hL]

/-- Witness for C7 at a concrete state and result. -/
theorem C7_level2A_always_proceeds_witness :
    (submitTaskResult
      { initialState with currentLevel := .level_2, passedLevel1 := true }
      (sampleResult "L2_A" false)).currentTask = .B ∧
    (submitTaskResult
      { initialState with currentLevel := .level_2, passedLevel1 := true }
      (sampleResult "L2_A" false)).isComplete = false := by
  have h := C7_level2A_always_proceeds
    { initialState with currentLevel := .level_2, passedLevel1 := true }
    (sampleResult "L2_A" false) rfl rfl rfl
  exact ⟨h.2.1, h.2.2.1⟩

/-- C8: `completeRepair` resets `currentSlot` to `A` of the same level and
changes nothing else — level, ledger, `repairAttempts`, `needsExtraSupport`,
`isComplete`, `passedLevel1`, `passedLevel2` are all preserved — and no
operation ever decrements `repairAttempts`. -/
theorem C8_repair_completion_frame (s : DiagnosticState) :
    (completeRepair s).currentTask = .A ∧
    (completeRepair s).currentLevel = s.currentLevel ∧
    (completeRepair s).taskResults = s.taskResults ∧
    (completeRepair s).repairAttempts = s.repairAttempts ∧
    (completeRepair s).needsExtraSupport = s.needsExtraSupport ∧
    (completeRepair s).isComplete = s.isComplete ∧
    (completeRepair s).passedLevel1 = s.passedLevel1 ∧
    (completeRepair s).passedLevel2 = s.passedLevel2 ∧
    ∀ r : TaskResult, s.repairAttempts ≤ (submitTaskResult s r).repairAttempts := by
  refine ⟨rfl, rfl, rfl, rfl, rfl, rfl, rfl, rfl, ?_⟩
  intro r
  obtain ⟨cl, ct, tr, ra, ns, ic, p1, p2⟩ := s
  cases cl <;> cases ct <;> simp only [submitTaskResult] <;>
    (try split) <;> (try split) <;> simp

/-- C1: at Level 2 slot B in a non-complete state holding exactly one
recorded `L2_A` result `a`, submitting a result `r` for `L2_B` produces the
three-way outcome: both correct → complete, `passedLevel2`, no extra
support; exactly one correct → complete, `passedLevel2`, extra support;
both incorrect → slot `Repair`, `repairAttempts` incremented, not
complete. -/
theorem C1_level2B_outcome (s : DiagnosticState) (r a : TaskResult)
    (hL : s.currentLevel = .level_2) (hS : s.currentTask = .B)
    (hC : s.isComplete = false)
    (ha : s.taskResults.filter (fun x => x.taskId == "L2_A") = [a])
    (hr : r.taskId = "L2_B") :
    (a.isCorrect = true → r.isCorrect = true →
      (submitTaskResult s r).isComplete = true ∧
      (submitTaskResult s r).passedLevel2 = true ∧
      (submitTaskResult s r).needsExtraSupport = false) ∧
    (a.isCorrect ≠ r.isCorrect →
      (submitTaskResult s r).isComplete = true ∧
      (submitTaskResult s r).passedLevel2 = true ∧
      (submitTaskResult s r).needsExtraSupport = true) ∧
    (a.isCorrect = false → r.isCorrect = false →
      (submitTaskResult s r).currentTask = .repair ∧
      (submitTaskResult s r).repairAttempts = s.repairAttempts + 1 ∧
      (submitTaskResult s r).isComplete = false) := by
  have hfa : (s.taskResults.find? fun x => x.taskId == "L2_A") = some a := by
    rw [← List.filter_head?, ha]
    rfl
  have hfind : ((s.taskResults ++ [r]).find? fun x => x.taskId == "L2_A")
      = some a := by
    rw [List.find?_append, hfa]
    rfl
  have hA : taskACorrectOf (s.taskResults ++ [r]) = a.isCorrect :=
    taskACorrectOf_of_find _ a hfind
  rw [submit_level2B_eq s r hL hS, hA]
  refine ⟨?_, ?_, ?_⟩
  · intro h1 h2
    simp [h1, h2]
  · intro h12
    cases h1 : a.isCorrect <;> cases h2 : r.isCorrect <;>
      simp [h1, h2] at h12 ⊢
  · intro h1 h2
    simp [h1, h2, hC]

/-- Witness for C1: one recorded correct `L2_A` result, then a correct
`L2_B` result, gives a clean completed pass. -/
theorem C1_level2B_outcome_witness :
    (submitTaskResult { initialState with currentLevel := .level_2, currentTask := .B, passedLevel1 := true, taskResults := [sampleResult "L2_A" true] } (sampleResult "L2_B" true)).isComplete = true ∧
    (submitTaskResult { initialState with currentLevel := .level_2, currentTask := .B, passedLevel1 := true, taskResults := [sampleResult "L2_A" true] } (sampleResult "L2_B" true)).needsExtraSupport = false := by
  have h := (C1_level2B_outcome
    { initialState with currentLevel := .level_2, currentTask := .B, passedLevel1 := true, taskResults := [sampleResult "L2_A" true] }
    (sampleResult "L2_B" true) (sampleResult "L2_A" true)
    rfl rfl rfl (by decide) rfl).1 rfl rfl
  exact ⟨h.1, h.2.2⟩

/-- C2: the paired slot-A correctness is taken from the FIRST `L2_A` ledger
entry. In any session that reaches Level 2 slot A with no `L2_A` entry yet,
fails both `L2_A` and `L2_B` (entering Repair), completes repair, and then
retries with `L2_A` correct and `L2_B` correct, the final state is complete
with `needsExtraSupport = true` — the stale pre-repair `L2_A` result
decides the verdict instead of the fresh correct one. -/
theorem C2_stale_first_L2A_entry (s : DiagnosticState)
    (r1 r2 r3 r4 : TaskResult)
    (hL : s.currentLevel = .level_2) (hS : s.currentTask = .A)
    (hC : s.isComplete = false)
    (hnoA : ∀ x ∈ s.taskResults, (x.taskId == "L2_A") = false)
    (h1 : r1.taskId = "L2_A") (h1c : r1.isCorrect = false)
    (h2 : r2.taskId = "L2_B") (h2c : r2.isCorrect = false)
    (h3 : r3.taskId = "L2_A") (h3c : r3.isCorrect = true)
    (h4 : r4.taskId = "L2_B") (h4c : r4.isCorrect = true) :
    (submitTaskResult (submitTaskResult s r1) r2).currentTask = .repair ∧
    (submitTaskResult (submitTaskResult s r1) r2).isComplete = false ∧
    (submitTaskResult (submitTaskResult (completeRepair
        (submitTaskResult (submitTaskResult s r1) r2)) r3) r4).isComplete
      = true ∧
    (submitTaskResult (submitTaskResult (completeRepair
        (submitTaskResult (submitTaskResult s r1) r2)) r3) r4).passedLevel2
      = true ∧
    (submitTaskResult (submitTaskResult (completeRepair
        (submitTaskResult (submitTaskResult s r1) r2)) r3) r4).needsExtraSupport
      = true := by
  have h0 : (s.taskResults.find? fun x => x.taskId == "L2_A") = none :=
    List.find?_eq_none.mpr (fun x hx => by simp [hnoA x hx])
  have hfind2 : ((s.taskResults ++ [r1, r2]).find?
      fun x => x.taskId == "L2_A") = some r1 := by
    rw [List.find?_append, h0]
    simp [h1]
  have hA2 : taskACorrectOf (s.taskResults ++ [r1, r2]) = false :=
    (taskACorrectOf_of_find _ r1 hfind2).trans h1c
  have hfind5 : ((s.taskResults ++ [r1, r2, r3, r4]).find?
      fun x => x.taskId == "L2_A") = some r1 := by
    rw [List.find?_append, h0]
    simp [h1]
  have hA5 : taskACorrectOf (s.taskResults ++ [r1, r2, r3, r4])
      = false :=
    (taskACorrectOf_of_find _ r1 hfind5).trans h1c
  have e1 : submitTaskResult s r1
      = { s with taskResults := s.taskResults ++ [r1], currentTask := .B } :=
    submit_level2A_eq s r1 hL hS
  have e2 : submitTaskResult (submitTaskResult s r1) r2
      = { s with taskResults := (s.taskResults ++ [r1]) ++ [r2], currentTask := .repair, repairAttempts := s.repairAttempts + 1 } := by
    rw [e1, submit_level2B_eq { s with taskResults := s.taskResults ++ [r1], currentTask := .B } r2 hL rfl]
    simp [hA2, h2c]
  have e3 : completeRepair (submitTaskResult (submitTaskResult s r1) r2)
      = { s with taskResults := (s.taskResults ++ [r1]) ++ [r2], currentTask := .A, repairAttempts := s.repairAttempts + 1 } := by
    rw [e2]
    rfl
  have e4 : submitTaskResult (completeRepair
      (submitTaskResult (submitTaskResult s r1) r2)) r3
      = { s with taskResults := ((s.taskResults ++ [r1]) ++ [r2]) ++ [r3], currentTask := .B, repairAttempts := s.repairAttempts + 1 } := by
    rw [e3, submit_level2A_eq { s with taskResults := (s.taskResults ++ [r1]) ++ [r2], currentTask := .A, repairAttempts := s.repairAttempts + 1 } r3 hL rfl]
  have e5 : submitTaskResult (submitTaskResult (completeRepair
      (submitTaskResult (submitTaskResult s r1) r2)) r3) r4
      = { s with taskResults := (((s.taskResults ++ [r1]) ++ [r2]) ++ [r3]) ++ [r4], currentTask := .B, repairAttempts := s.repairAttempts + 1, isComplete := true, passedLevel2 := true, needsExtraSupport := true } := by
    rw [e4, submit_level2B_eq { s with taskResults := ((s.taskResults ++ [r1]) ++ [r2]) ++ [r3], currentTask := .B, repairAttempts := s.repairAttempts + 1 } r4 hL rfl]
    simp [hA5, h4c]
  rw [e5, e2]
  exact ⟨rfl, hC, rfl, rfl, rfl⟩

/-- Witness for C2: a concrete session that passes Level 1, fails Level 2
twice into repair, then answers both retried Level-2 tasks correctly, and
is nonetheless flagged for extra support. -/
theorem C2_stale_first_L2A_entry_witness :
    (submitTaskResult (submitTaskResult (completeRepair (submitTaskResult
      (submitTaskResult (submitTaskResult initialState (sampleResult "L1_A" true)) (sampleResult "L2_A" false)) (sampleResult "L2_B" false)))
      (sampleResult "L2_A" true)) (sampleResult "L2_B" true)).needsExtraSupport
      = true := by
  have h := C2_stale_first_L2A_entry
    (submitTaskResult initialState (sampleResult "L1_A" true))
    (sampleResult "L2_A" false) (sampleResult "L2_B" false)
    (sampleResult "L2_A" true) (sampleResult "L2_B" true)
    rfl rfl rfl (by decide) rfl rfl rfl rfl rfl rfl rfl rfl
  exact h.2.2.2.2

/-- C3 counterexample: the engine has no completion or repair guard. The
clean-pass end state is complete, yet a further `submitTaskResult` call is
processed as a normal Level-2-B transition: it modifies the state and grows
the ledger to 4 entries — no exception, no rejection. -/
theorem C3_counterexample :
    (runOps initialState cleanPassOps).isComplete = true ∧
    submitTaskResult (runOps initialState cleanPassOps)
      (sampleResult "L2_B" false) ≠ runOps initialState cleanPassOps ∧
    (submitTaskResult (runOps initialState cleanPassOps)
      (sampleResult "L2_B" false)).taskResults.length = 4 := by
  refine ⟨rfl, ?_, rfl⟩
  decide

/-- C3 amended: `submitTaskResult` raises nothing. On a state whose slot is
`repair` it matches no branch and returns the state unchanged; on any
non-repair state — including a complete one — it is processed normally and
appends the result to the ledger. -/
theorem C3_amended_no_guard (s : DiagnosticState) (r : TaskResult) :
    (s.currentTask = .repair → submitTaskResult s r = s) ∧
    (s.isComplete = true → s.currentTask ≠ .repair →
      (submitTaskResult s r).taskResults = s.taskResults ++ [r]) :=
  ⟨fun h => submit_repair_eq s r h,
   fun _ h2 => submit_taskResults_append s r h2⟩

/-- Witness for the amended C3 at concrete inputs: a repair-slot state is
returned unchanged, and a complete state still gets the result appended. -/
theorem C3_amended_no_guard_witness :
    submitTaskResult { initialState with currentTask := .repair } (sampleResult "L1_A" true) = { initialState with currentTask := .repair } ∧
    (submitTaskResult (runOps initialState cleanPassOps) (sampleResult "L2_B" false)).taskResults.length = 4 := by
  refine ⟨(C3_amended_no_guard { initialState with currentTask := .repair } (sampleResult "L1_A" true)).1 rfl, ?_⟩
  rw [(C3_amended_no_guard (runOps initialState cleanPassOps) (sampleResult "L2_B" false)).2 rfl (by decide)]
  decide

/-- C4 counterexample: on the ledger `[L1_A incorrect, L1_B correct]` the
topic `Basic Counting` is first classified as a gap, yet the later correct
same-topic entry also lists it as a strength — the two lists de-duplicate
independently, not first-seen-wins across lists. -/
theorem C4_counterexample :
    (getDiagnosticSummary { initialState with taskResults := [sampleResult "L1_A" false, sampleResult "L1_B" true] }).gaps = ["Basic Counting"] ∧
    (getDiagnosticSummary { initialState with taskResults := [sampleResult "L1_A" false, sampleResult "L1_B" true] }).strengths = ["Basic Counting"] := by
  constructor <;> decide

/-- One `forEach` iteration adds the entry's topic to `strengths` exactly
when the entry is correct, de-duplicating within `strengths` only. -/
theorem classifyStep_snd_mem (acc : List String × List String)
    (r : TaskResult) (t : String) :
    (t ∈ (classifyStep acc r).2 ↔
      t ∈ acc.2 ∨ (r.isCorrect = true ∧ topicOf r = t)) := by
  rcases acc with ⟨g, st⟩
  unfold classifyStep
  cases hc : r.isCorrect <;> simp [hc] <;> split <;> aesop

/-- One `forEach` iteration adds the entry's topic to `gaps` exactly when
the entry is incorrect, de-duplicating within `gaps` only. -/
theorem classifyStep_fst_mem (acc : List String × List String)
    (r : TaskResult) (t : String) :
    (t ∈ (classifyStep acc r).1 ↔
      t ∈ acc.1 ∨ (r.isCorrect = false ∧ topicOf r = t)) := by
  rcases acc with ⟨g, st⟩
  unfold classifyStep
  cases hc : r.isCorrect <;> simp [hc] <;> split <;> aesop

/-- Membership in the accumulated `(gaps, strengths)` pair over the whole
`forEach` loop. -/
theorem classify_foldl_mem (results : List TaskResult)
    (acc : List String × List String) (t : String) :
    (t ∈ (results.foldl classifyStep acc).2 ↔
      t ∈ acc.2 ∨ ∃ r ∈ results, r.isCorrect = true ∧ topicOf r = t) ∧
    (t ∈ (results.foldl classifyStep acc).1 ↔
      t ∈ acc.1 ∨ ∃ r ∈ results, r.isCorrect = false ∧ topicOf r = t) := by
  induction results generalizing acc with
  | nil => simp
  | cons r rs ih =>
    simp only [List.foldl_cons]
    constructor
    · rw [(ih (classifyStep acc r)).1, classifyStep_snd_mem]
      simp only [List.mem_cons, exists_eq_or_imp]
      tauto
    · rw [(ih (classifyStep acc r)).2, classifyStep_fst_mem]
      simp only [List.mem_cons, exists_eq_or_imp]
      tauto

/-- C4 amended: `getDiagnosticSummary` de-duplicates `strengths` and `gaps`
independently of each other: a topic is listed among `strengths` exactly
when some ledger entry for it is correct, and among `gaps` exactly when
some ledger entry for it is incorrect — so a topic first classified as a
gap IS additionally listed as a strength once a later same-topic attempt
succeeds. -/
theorem C4_summary_topic_membership (s : DiagnosticState) (t : String) :
    (t ∈ (getDiagnosticSummary s).strengths ↔
      ∃ r ∈ s.taskResults, r.isCorrect = true ∧ topicOf r = t) ∧
    (t ∈ (getDiagnosticSummary s).gaps ↔
      ∃ r ∈ s.taskResults, r.isCorrect = false ∧ topicOf r = t) := by
  have h := classify_foldl_mem s.taskResults ([], []) t
  simp only [getDiagnosticSummary]
  constructor
  · rw [h.1]
    simp
  · rw [h.2]
    simp

/-- The submitted results of a trace are exactly as many as its submit
steps. -/
theorem submittedResults_length (ops : List FlowOp) :
    (submittedResults ops).length = (ops.filter isSubmit).length := by
  induction ops with
  | nil => rfl
  | cons op rest ih =>
      cases op <;> simp [submittedResults, isSubmit, List.filter_cons, ih]

/-- Running a legal trace appends exactly the submitted results, in order,
to the starting ledger. -/
theorem runOps_taskResults (ops : List FlowOp) (s : DiagnosticState)
    (h : legalOps s ops = true) :
    (runOps s ops).taskResults = s.taskResults ++ submittedResults ops := by
  induction ops generalizing s with
  | nil => simp [runOps, submittedResults]
  | cons op rest ih =>
    cases op with
    | submit r =>
      simp only [legalOps, Bool.and_eq_true] at h
      obtain ⟨⟨h1, h2⟩, h3⟩ := h
      have hner : s.currentTask ≠ .repair := by simpa using h2
      calc (runOps s (.submit r :: rest)).taskResults
          = (submitTaskResult s r).taskResults ++ submittedResults rest :=
            ih (applyOp s (.submit r)) h3
        _ = (s.taskResults ++ [r]) ++ submittedResults rest := by
            rw [submit_taskResults_append s r hner]
        _ = s.taskResults ++ submittedResults (FlowOp.submit r :: rest) := by
            simp [submittedResults]
    | repairDone =>
      simp only [legalOps, Bool.and_eq_true] at h
      exact ih (applyOp s .repairDone) h.2

/-- C5: every accepted `submitTaskResult` call appends exactly its one
result to the end of the ledger, `completeRepair` leaves the ledger
untouched, and (the two read-only operations returning no state at all)
after a legal trace the ledger is exactly the list of submitted results in
submission order — in particular its length equals the number of accepted
submit calls. -/
theorem C5_ledger_append_only (ops : List FlowOp)
    (h : legalOps initialState ops = true) :
    (runOps initialState ops).taskResults = submittedResults ops ∧
    (runOps initialState ops).taskResults.length
      = (ops.filter isSubmit).length ∧
    (∀ s : DiagnosticState, ∀ r : TaskResult, s.currentTask ≠ .repair →
      (submitTaskResult s r).taskResults = s.taskResults ++ [r]) ∧
    (∀ s : DiagnosticState, (completeRepair s).taskResults = s.taskResults) := by
  have hrun := runOps_taskResults ops initialState h
  refine ⟨?_, ?_, submit_taskResults_append, fun _ => rfl⟩
  · simpa [initialState] using hrun
  · rw [hrun]
    simp [initialState, submittedResults_length]

/-- Witness for C5: the three-step clean pass is legal and leaves a ledger
of exactly its three submitted results. -/
theorem C5_ledger_append_only_witness :
    legalOps initialState cleanPassOps = true ∧
    (runOps initialState cleanPassOps).taskResults.length = 3 := by
  refine ⟨by decide, ?_⟩
  rw [(C5_ledger_append_only cleanPassOps (by decide)).2.1]
  decide

/-- Folding the timer sum over the ledger equals the sum of the
`timeTakenSeconds` fields. -/
theorem foldl_time_eq (l : List TaskResult) (n : Nat) :
    l.foldl (fun sum r => sum + r.timeTakenSeconds) n
      = n + (l.map fun r => r.timeTakenSeconds).sum := by
  induction l generalizing n with
  | nil => simp
  | cons r rs ih =>
    simp only [List.foldl_cons, List.map_cons, List.sum_cons, ih]
    omega

/-- C9: on a complete state, `getDiagnosticSummary` returns
`passed = passedLevel1 OR passedLevel2`, the count of correct ledger
entries, the ledger length, the sum of elapsed seconds, and passes
`needsExtraSupport` and `repairAttempts` through unchanged. -/
theorem C9_summary_fields (s : DiagnosticState) (h : s.isComplete = true) :
    (getDiagnosticSummary s).passed = (s.passedLevel1 || s.passedLevel2) ∧
    (getDiagnosticSummary s).correctCount
      = s.taskResults.countP (fun r => r.isCorrect) ∧
    (getDiagnosticSummary s).totalQuestions = s.taskResults.length ∧
    (getDiagnosticSummary s).totalTimeSeconds
      = (s.taskResults.map fun r => r.timeTakenSeconds).sum ∧
    (getDiagnosticSummary s).needsExtraSupport = s.needsExtraSupport ∧
    (getDiagnosticSummary s).repairAttempts = s.repairAttempts := by
  refine ⟨rfl, ?_, rfl, ?_, rfl, rfl⟩
  · simp only [getDiagnosticSummary]
    rw [List.countP_eq_length_filter]
  · simp only [getDiagnosticSummary]
    rw [foldl_time_eq]
    simp

/-- Witness for C9: a complete state over a ledger of 4 results with 3
correct yields `correctCount = 3` and `totalQuestions = 4`. -/
theorem C9_summary_fields_witness :
    (getDiagnosticSummary { initialState with taskResults := [sampleResult "L1_A" true, sampleResult "L2_A" true, sampleResult "L2_B" false, sampleResult "L2_B" true], isComplete := true, passedLevel1 := true }).correctCount = 3 ∧
    (getDiagnosticSummary { initialState with taskResults := [sampleResult "L1_A" true, sampleResult "L2_A" true, sampleResult "L2_B" false, sampleResult "L2_B" true], isComplete := true, passedLevel1 := true }).totalQuestions = 4 := by
  have h := C9_summary_fields { initialState with taskResults := [sampleResult "L1_A" true, sampleResult "L2_A" true, sampleResult "L2_B" false, sampleResult "L2_B" true], isComplete := true, passedLevel1 := true } rfl
  constructor
  · rw [h.2.1]
    decide
  · rw [h.2.2.1]
    decide

/-- Every single step preserves the invariant that being at Level 2 implies
Level 1 was passed. -/
theorem applyOp_level2_inv (s : DiagnosticState) (op : FlowOp)
    (h : s.currentLevel = .level_2 → s.passedLevel1 = true) :
    (applyOp s op).currentLevel = .level_2 →
      (applyOp s op).passedLevel1 = true := by
  cases op with
  | repairDone => exact h
  | submit r =>
    obtain ⟨cl, ct, tr, ra, ns, ic, p1, p2⟩ := s
    cases cl <;> cases ct <;>
      simp only [applyOp, submitTaskResult] at * <;>
      (try split) <;> (try split) <;> simp_all

/-- The Level-2-implies-passed-Level-1 invariant is preserved along any
trace. -/
theorem runOps_level2_inv (ops : List FlowOp) (s : DiagnosticState)
    (h : s.currentLevel = .level_2 → s.passedLevel1 = true) :
    (runOps s ops).currentLevel = .level_2 →
      (runOps s ops).passedLevel1 = true := by
  induction ops generalizing s with
  | nil => exact h
  | cons op rest ih => exact ih (applyOp s op) (applyOp_level2_inv s op h)

/-- C10: in every state reachable from the fresh initial state by
`submitTaskResult` and `completeRepair` steps, being at Level 2 implies
`passedLevel1 = true`. -/
theorem C10_level2_requires_level1_pass (ops : List FlowOp)
    (h : (runOps initialState ops).currentLevel = .level_2) :
    (runOps initialState ops).passedLevel1 = true :=
  runOps_level2_inv ops initialState (fun hc => nomatch hc) h

/-- Witness for C10: one correct `L1_A` submission reaches Level 2, and the
theorem yields `passedLevel1 = true` there. -/
theorem C10_level2_requires_level1_pass_witness :
    (runOps initialState [FlowOp.submit (sampleResult "L1_A" true)]).currentLevel = .level_2 ∧
    (runOps initialState [FlowOp.submit (sampleResult "L1_A" true)]).passedLevel1 = true :=
  ⟨rfl, C10_level2_requires_level1_pass
    [FlowOp.submit (sampleResult "L1_A" true)] rfl⟩
